import Mathlib

/-!
Verification development for `dcj.py`, a command-line wrapper around
docker compose that renders a Jinja template and rewrites a small set of
custom flags.

The embedding is shallow: each Python function of `dcj.py` is translated
into a Lean function.  Strings are modelled by Lean `String`
(logically a list of characters); Python string methods used by the
source (`strip`, `startswith`, `split("=", 1)`, `replace`, `lower`) are
modelled by character-list functions defined below.  Filesystem state,
the ambient environment, subprocess execution and the (external) Jinja
renderer are modelled by an explicit `World` record, and the observable
actions of a run are collected in an ordered `Effect` trace.
-/

namespace Dcj

/-! ## Character and string helpers (models of the Python str methods) -/

/-- Single quote character, written via its code point. -/
def squoteC : Char := Char.ofNat 39

/-- Python default whitespace for `str.strip` (ASCII subset). -/
def pyWS (c : Char) : Bool :=
  c == ' ' || c == '\t' || c == '\n' || c == '\r' || c == '\x0b' || c == '\x0c'

/-- Model of Python `str.lstrip()`. -/
def lstripL (s : List Char) : List Char := s.dropWhile pyWS

/-- Model of Python `str.rstrip()`. -/
def rstripL (s : List Char) : List Char := (s.reverse.dropWhile pyWS).reverse

/-- Model of Python `str.strip()`. -/
def stripL (s : List Char) : List Char := rstripL (lstripL s)

/-- Split at the first occurrence of `sep`: model of `s.split(sep, 1)`
(the pair is `(before, after)`; if `sep` is absent the second component
is empty and the first is the whole list). -/
def splitFirstL (sep : Char) : List Char → List Char × List Char
  | [] => ([], [])
  | c :: cs =>
    if c == sep then ([], cs)
    else
      let r := splitFirstL sep cs
      (c :: r.1, r.2)

/-- The part of `s` after the first `=`: model of `s.split("=", 1)[1]`. -/
def afterFirstEqS (s : String) : String := ⟨(splitFirstL '=' s.data).2⟩

/-- The part of `s` before the first `=`: model of `s.split("=", 1)[0]`. -/
def beforeFirstEqS (s : String) : String := ⟨(splitFirstL '=' s.data).1⟩

/-- Model of Python `s.startswith(p)`. -/
def strStartsWith (s p : String) : Bool := List.isPrefixOf p.data s.data

/-! ## ArgRewriter (dcj.py lines 92-143)

`ArgRewriter.process` scans the token list once, left to right.  We model
the mutable loop as a recursive function threading the `CustomArgs`
record; the final record carries the value of the last assignment to each
field, exactly as in the Python loop. -/

/-- Model of the `CustomArgs` dataclass (dcj.py lines 85-89). -/
structure CustomArgs where
  yml_file : Option String := none
  env_file : Option String := none
  dump : Bool := false
deriving DecidableEq

/-- The loop body of `ArgRewriter.process` (dcj.py lines 100-143).
`c` is the current `self.custom`; the result is the produced `out` list
paired with the final `self.custom`, or the `SystemExit` message. -/
def processAux (c : CustomArgs) : List String → Except String (List String × CustomArgs)
  | [] => .ok ([], c)
  | tok :: rest =>
    if tok = "--yml-file" then
      match rest with
      | [] => .error "--yml-file requires a value"
      | value :: rest2 =>
        (processAux { c with yml_file := some value } rest2).map
          (fun r => ("-f" :: value :: r.1, r.2))
    else if strStartsWith tok "--yml-file=" then
      let value := afterFirstEqS tok
      (processAux { c with yml_file := some value } rest).map
        (fun r => ("-f" :: value :: r.1, r.2))
    else if tok = "--env-file" then
      match rest with
      | [] => .error "--env-file requires a value"
      | value :: rest2 =>
        (processAux { c with env_file := some value } rest2).map
          (fun r => ("--env-file" :: value :: r.1, r.2))
    else if strStartsWith tok "--env-file=" then
      let value := afterFirstEqS tok
      (processAux { c with env_file := some value } rest).map
        (fun r => ("--env-file" :: value :: r.1, r.2))
    else if tok = "--dump" then
      processAux { c with dump := true } rest
    else
      (processAux c rest).map (fun r => (tok :: r.1, r.2))

/-- Model of `ArgRewriter(argv).process()`: starts from an empty
`CustomArgs` (dcj.py lines 95-98) and returns the rewritten list and the
collected custom values. -/
def ArgRewriter.process (argv : List String) : Except String (List String × CustomArgs) :=
  processAux {} argv

/-! ### Chunk decomposition of the scan

To reason about order preservation we decompose an accepted input into
the maximal groups the cursor consumes in one loop iteration: a
pass-through token, a two-token flag occurrence, a `flag=value` token, or
the `--dump` token. -/

/-- One group of tokens consumed by a single iteration of the rewriting
loop.  The `...Eq` constructors keep the whole original token. -/
inductive Chunk where
  | pass (tok : String)
  | ymlPair (value : String)
  | ymlEq (tok : String)
  | envPair (value : String)
  | envEq (tok : String)
  | dumpFlag
deriving DecidableEq

/-- The input tokens a chunk consumes. -/
def Chunk.consumed : Chunk → List String
  | .pass t => [t]
  | .ymlPair v => ["--yml-file", v]
  | .ymlEq t => [t]
  | .envPair v => ["--env-file", v]
  | .envEq t => [t]
  | .dumpFlag => ["--dump"]

/-- The output tokens a chunk emits into the rewritten list. -/
def Chunk.emitted : Chunk → List String
  | .pass t => [t]
  | .ymlPair v => ["-f", v]
  | .ymlEq t => ["-f", afterFirstEqS t]
  | .envPair v => ["--env-file", v]
  | .envEq t => ["--env-file", afterFirstEqS t]
  | .dumpFlag => []

/-- Whether a chunk is a plain pass-through token. -/
def Chunk.isPass : Chunk → Bool
  | .pass _ => true
  | _ => false

/-- Whether a chunk is an occurrence of the `--yml-file` flag. -/
def Chunk.isYml : Chunk → Bool
  | .ymlPair _ => true
  | .ymlEq _ => true
  | _ => false

/-- Shape invariant of chunks produced by the scan: the `...Eq`
constructors hold a token of the corresponding `flag=` form. -/
def Chunk.wf : Chunk → Prop
  | .ymlEq t => strStartsWith t "--yml-file=" = true
  | .envEq t => strStartsWith t "--env-file=" = true
  | _ => True

/-- The effect of one chunk on the `CustomArgs` record. -/
def chunkApply (c : CustomArgs) : Chunk → CustomArgs
  | .pass _ => c
  | .ymlPair v => { c with yml_file := some v }
  | .ymlEq t => { c with yml_file := some (afterFirstEqS t) }
  | .envPair v => { c with env_file := some v }
  | .envEq t => { c with env_file := some (afterFirstEqS t) }
  | .dumpFlag => { c with dump := true }

/-- The `CustomArgs` record produced by a chunk sequence starting from
the empty record. -/
def chunksState (cs : List Chunk) : CustomArgs := cs.foldl chunkApply {}

/-- Concatenated image of a list under a list-valued function. -/
def flatMapL {α β : Type} (f : α → List β) : List α → List β
  | [] => []
  | a :: as => f a ++ flatMapL f as

/-- The chunk decomposition of a token list, following exactly the same
branch structure as `processAux`. -/
def parseChunks : List String → Except String (List Chunk)
  | [] => .ok []
  | tok :: rest =>
    if tok = "--yml-file" then
      match rest with
      | [] => .error "--yml-file requires a value"
      | value :: rest2 => (parseChunks rest2).map (fun cs => .ymlPair value :: cs)
    else if strStartsWith tok "--yml-file=" then
      (parseChunks rest).map (fun cs => .ymlEq tok :: cs)
    else if tok = "--env-file" then
      match rest with
      | [] => .error "--env-file requires a value"
      | value :: rest2 => (parseChunks rest2).map (fun cs => .envPair value :: cs)
    else if strStartsWith tok "--env-file=" then
      (parseChunks rest).map (fun cs => .envEq tok :: cs)
    else if tok = "--dump" then
      (parseChunks rest).map (fun cs => .dumpFlag :: cs)
    else
      (parseChunks rest).map (fun cs => .pass tok :: cs)

/-- Characterization of the rewriting loop by the chunk decomposition:
the loop succeeds exactly when the decomposition does, the output is the
concatenation of the chunks' emitted tokens, and the final record is the
left fold of the chunks' record updates. -/
theorem processAux_eq : ∀ (ts : List String) (c : CustomArgs),
    processAux c ts =
      (parseChunks ts).map (fun cs => (flatMapL Chunk.emitted cs, cs.foldl chunkApply c))
  | [], c => by
    simp [processAux, parseChunks, Except.map, flatMapL]
  | tok :: rest, c => by
    by_cases h1 : tok = "--yml-file"
    · cases rest with
      | nil =>
        rw [processAux.eq_def, parseChunks.eq_def]
        simp only [if_pos h1]
        simp [Except.map]
      | cons v rest2 =>
        have ih := processAux_eq rest2 { c with yml_file := some v }
        rw [processAux.eq_def, parseChunks.eq_def]
        simp only [if_pos h1]
        rw [ih]
        cases hp : parseChunks rest2 with
        | error m => simp [hp, Except.map]
        | ok cs => simp [hp, Except.map, flatMapL, chunkApply, Chunk.emitted]
    · by_cases h2 : strStartsWith tok "--yml-file=" = true
      · have ih := processAux_eq rest { c with yml_file := some (afterFirstEqS tok) }
        rw [processAux.eq_def, parseChunks.eq_def]
        simp only [if_neg h1, if_pos h2]
        rw [ih]
        cases hp : parseChunks rest with
        | error m => simp [hp, Except.map]
        | ok cs => simp [hp, Except.map, flatMapL, chunkApply, Chunk.emitted]
      · by_cases h3 : tok = "--env-file"
        · cases rest with
          | nil =>
            rw [processAux.eq_def, parseChunks.eq_def]
            simp only [if_neg h1, if_neg h2, if_pos h3]
            simp [Except.map]
          | cons v rest2 =>
            have ih := processAux_eq rest2 { c with env_file := some v }
            rw [processAux.eq_def, parseChunks.eq_def]
            simp only [if_neg h1, if_neg h2, if_pos h3]
            rw [ih]
            cases hp : parseChunks rest2 with
            | error m => simp [hp, Except.map]
            | ok cs => simp [hp, Except.map, flatMapL, chunkApply, Chunk.emitted]
        · by_cases h4 : strStartsWith tok "--env-file=" = true
          · have ih := processAux_eq rest { c with env_file := some (afterFirstEqS tok) }
            rw [processAux.eq_def, parseChunks.eq_def]
            simp only [if_neg h1, if_neg h2, if_neg h3, if_pos h4]
            rw [ih]
            cases hp : parseChunks rest with
            | error m => simp [hp, Except.map]
            | ok cs => simp [hp, Except.map, flatMapL, chunkApply, Chunk.emitted]
          · by_cases h5 : tok = "--dump"
            · have ih := processAux_eq rest { c with dump := true }
              rw [processAux.eq_def, parseChunks.eq_def]
              simp only [if_neg h1, if_neg h2, if_neg h3, if_neg h4, if_pos h5]
              rw [ih]
              cases hp : parseChunks rest with
              | error m => simp [hp, Except.map]
              | ok cs => simp [hp, Except.map, flatMapL, chunkApply, Chunk.emitted]
            · have ih := processAux_eq rest c
              rw [processAux.eq_def, parseChunks.eq_def]
              simp only [if_neg h1, if_neg h2, if_neg h3, if_neg h4, if_neg h5]
              rw [ih]
              cases hp : parseChunks rest with
              | error m => simp [hp, Except.map]
              | ok cs => simp [hp, Except.map, flatMapL, chunkApply, Chunk.emitted]

/-- Soundness of the decomposition: the chunks' consumed tokens
concatenate back to the input, and every produced chunk satisfies the
shape invariant `Chunk.wf`. -/
theorem parseChunks_sound : ∀ (ts : List String) (cs : List Chunk),
    parseChunks ts = .ok cs →
      flatMapL Chunk.consumed cs = ts ∧ ∀ c ∈ cs, Chunk.wf c
  | [], cs, h => by
    simp [parseChunks] at h
    subst h
    simp [flatMapL]
  | tok :: rest, cs, h => by
    by_cases h1 : tok = "--yml-file"
    · cases rest with
      | nil =>
        rw [parseChunks.eq_def] at h
        simp only [if_pos h1] at h
        exact Except.noConfusion h
      | cons v rest2 =>
        rw [parseChunks.eq_def] at h
        simp only [if_pos h1] at h
        cases hp : parseChunks rest2 with
        | error m => simp [hp, Except.map] at h
        | ok cs2 =>
          rw [hp] at h
          simp only [Except.map] at h
          cases h
          have ih := parseChunks_sound rest2 cs2 hp
          refine ⟨?_, ?_⟩
          · simp [flatMapL, Chunk.consumed, ih.1, h1]
          · intro c hc
            rcases List.mem_cons.mp hc with rfl | hc
            · trivial
            · exact ih.2 c hc
    · by_cases h2 : strStartsWith tok "--yml-file=" = true
      · rw [parseChunks.eq_def] at h
        simp only [if_neg h1, if_pos h2] at h
        cases hp : parseChunks rest with
        | error m => simp [hp, Except.map] at h
        | ok cs2 =>
          rw [hp] at h
          simp only [Except.map] at h
          cases h
          have ih := parseChunks_sound rest cs2 hp
          refine ⟨?_, ?_⟩
          · simp [flatMapL, Chunk.consumed, ih.1]
          · intro c hc
            rcases List.mem_cons.mp hc with rfl | hc
            · exact h2
            · exact ih.2 c hc
      · by_cases h3 : tok = "--env-file"
        · cases rest with
          | nil =>
            rw [parseChunks.eq_def] at h
            simp only [if_neg h1, if_neg h2, if_pos h3] at h
            exact Except.noConfusion h
          | cons v rest2 =>
            rw [parseChunks.eq_def] at h
            simp only [if_neg h1, if_neg h2, if_pos h3] at h
            cases hp : parseChunks rest2 with
            | error m => simp [hp, Except.map] at h
            | ok cs2 =>
              rw [hp] at h
              simp only [Except.map] at h
              cases h
              have ih := parseChunks_sound rest2 cs2 hp
              refine ⟨?_, ?_⟩
              · simp [flatMapL, Chunk.consumed, ih.1, h3]
              · intro c hc
                rcases List.mem_cons.mp hc with rfl | hc
                · trivial
                · exact ih.2 c hc
        · by_cases h4 : strStartsWith tok "--env-file=" = true
          · rw [parseChunks.eq_def] at h
            simp only [if_neg h1, if_neg h2, if_neg h3, if_pos h4] at h
            cases hp : parseChunks rest with
            | error m => simp [hp, Except.map] at h
            | ok cs2 =>
              rw [hp] at h
              simp only [Except.map] at h
              cases h
              have ih := parseChunks_sound rest cs2 hp
              refine ⟨?_, ?_⟩
              · simp [flatMapL, Chunk.consumed, ih.1]
              · intro c hc
                rcases List.mem_cons.mp hc with rfl | hc
                · exact h4
                · exact ih.2 c hc
          · by_cases h5 : tok = "--dump"
            · rw [parseChunks.eq_def] at h
              simp only [if_neg h1, if_neg h2, if_neg h3, if_neg h4, if_pos h5] at h
              cases hp : parseChunks rest with
              | error m => simp [hp, Except.map] at h
              | ok cs2 =>
                rw [hp] at h
                simp only [Except.map] at h
                cases h
                have ih := parseChunks_sound rest cs2 hp
                refine ⟨?_, ?_⟩
                · simp [flatMapL, Chunk.consumed, ih.1, h5]
                · intro c hc
                  rcases List.mem_cons.mp hc with rfl | hc
                  · trivial
                  · exact ih.2 c hc
            · rw [parseChunks.eq_def] at h
              simp only [if_neg h1, if_neg h2, if_neg h3, if_neg h4, if_neg h5] at h
              cases hp : parseChunks rest with
              | error m => simp [hp, Except.map] at h
              | ok cs2 =>
                rw [hp] at h
                simp only [Except.map] at h
                cases h
                have ih := parseChunks_sound rest cs2 hp
                refine ⟨?_, ?_⟩
                · simp [flatMapL, Chunk.consumed, ih.1]
                · intro c hc
                  rcases List.mem_cons.mp hc with rfl | hc
                  · trivial
                  · exact ih.2 c hc

/-- Appending to an accepted input extends its decomposition on the left:
the scan of `p` is not disturbed by what follows it. -/
theorem parseChunks_append : ∀ (p : List String) (cs : List Chunk) (q : List String),
    parseChunks p = .ok cs →
      parseChunks (p ++ q) = (parseChunks q).map (fun ds => cs ++ ds)
  | [], cs, q, h => by
    simp [parseChunks] at h
    subst h
    simp only [List.nil_append]
    cases hq : parseChunks q <;> simp [hq, Except.map]
  | tok :: rest, cs, q, h => by
    by_cases h1 : tok = "--yml-file"
    · cases rest with
      | nil =>
        rw [parseChunks.eq_def] at h
        simp only [if_pos h1] at h
        exact Except.noConfusion h
      | cons v rest2 =>
        rw [parseChunks.eq_def] at h
        simp only [if_pos h1] at h
        cases hp : parseChunks rest2 with
        | error m => simp [hp, Except.map] at h
        | ok cs2 =>
          rw [hp] at h
          simp only [Except.map] at h
          cases h
          have ih := parseChunks_append rest2 cs2 q hp
          simp only [List.cons_append]
          rw [parseChunks.eq_def]
          simp only [if_pos h1]
          rw [ih]
          cases parseChunks q <;> simp [Except.map]
    · by_cases h2 : strStartsWith tok "--yml-file=" = true
      · rw [parseChunks.eq_def] at h
        simp only [if_neg h1, if_pos h2] at h
        cases hp : parseChunks rest with
        | error m => simp [hp, Except.map] at h
        | ok cs2 =>
          rw [hp] at h
          simp only [Except.map] at h
          cases h
          have ih := parseChunks_append rest cs2 q hp
          simp only [List.cons_append]
          rw [parseChunks.eq_def]
          simp only [if_neg h1, if_pos h2]
          rw [ih]
          cases parseChunks q <;> simp [Except.map]
      · by_cases h3 : tok = "--env-file"
        · cases rest with
          | nil =>
            rw [parseChunks.eq_def] at h
            simp only [if_neg h1, if_neg h2, if_pos h3] at h
            exact Except.noConfusion h
          | cons v rest2 =>
            rw [parseChunks.eq_def] at h
            simp only [if_neg h1, if_neg h2, if_pos h3] at h
            cases hp : parseChunks rest2 with
            | error m => simp [hp, Except.map] at h
            | ok cs2 =>
              rw [hp] at h
              simp only [Except.map] at h
              cases h
              have ih := parseChunks_append rest2 cs2 q hp
              simp only [List.cons_append]
              rw [parseChunks.eq_def]
              simp only [if_neg h1, if_neg h2, if_pos h3]
              rw [ih]
              cases parseChunks q <;> simp [Except.map]
        · by_cases h4 : strStartsWith tok "--env-file=" = true
          · rw [parseChunks.eq_def] at h
            simp only [if_neg h1, if_neg h2, if_neg h3, if_pos h4] at h
            cases hp : parseChunks rest with
            | error m => simp [hp, Except.map] at h
            | ok cs2 =>
              rw [hp] at h
              simp only [Except.map] at h
              cases h
              have ih := parseChunks_append rest cs2 q hp
              simp only [List.cons_append]
              rw [parseChunks.eq_def]
              simp only [if_neg h1, if_neg h2, if_neg h3, if_pos h4]
              rw [ih]
              cases parseChunks q <;> simp [Except.map]
          · by_cases h5 : tok = "--dump"
            · rw [parseChunks.eq_def] at h
              simp only [if_neg h1, if_neg h2, if_neg h3, if_neg h4, if_pos h5] at h
              cases hp : parseChunks rest with
              | error m => simp [hp, Except.map] at h
              | ok cs2 =>
                rw [hp] at h
                simp only [Except.map] at h
                cases h
                have ih := parseChunks_append rest cs2 q hp
                simp only [List.cons_append]
                rw [parseChunks.eq_def]
                simp only [if_neg h1, if_neg h2, if_neg h3, if_neg h4, if_pos h5]
                rw [ih]
                cases parseChunks q <;> simp [Except.map]
            · rw [parseChunks.eq_def] at h
              simp only [if_neg h1, if_neg h2, if_neg h3, if_neg h4, if_neg h5] at h
              cases hp : parseChunks rest with
              | error m => simp [hp, Except.map] at h
              | ok cs2 =>
                rw [hp] at h
                simp only [Except.map] at h
                cases h
                have ih := parseChunks_append rest cs2 q hp
                simp only [List.cons_append]
                rw [parseChunks.eq_def]
                simp only [if_neg h1, if_neg h2, if_neg h3, if_neg h4, if_neg h5]
                rw [ih]
                cases parseChunks q <;> simp [Except.map]

/-- Folding chunks that are not `--yml-file` occurrences leaves the
`yml_file` field unchanged. -/
theorem foldl_yml_file (cs : List Chunk) :
    (∀ c ∈ cs, Chunk.isYml c = false) →
      ∀ s : CustomArgs, (cs.foldl chunkApply s).yml_file = s.yml_file := by
  induction cs with
  | nil => intro _ s; rfl
  | cons c cs ih =>
    intro h s
    have hc : Chunk.isYml c = false := h c (List.mem_cons_self c cs)
    have ht : ∀ d ∈ cs, Chunk.isYml d = false := fun d hd => h d (List.mem_cons_of_mem c hd)
    cases c with
    | pass t => simpa [List.foldl, chunkApply] using ih ht s
    | ymlPair v => simp [Chunk.isYml] at hc
    | ymlEq t => simp [Chunk.isYml] at hc
    | envPair v => simpa [List.foldl, chunkApply] using ih ht _
    | envEq t => simpa [List.foldl, chunkApply] using ih ht _
    | dumpFlag => simpa [List.foldl, chunkApply] using ih ht _

/-- On pass-through chunks, consumed and emitted tokens agree. -/
theorem filter_pass_consumed_emitted (cs : List Chunk) :
    flatMapL Chunk.consumed (cs.filter Chunk.isPass) =
      flatMapL Chunk.emitted (cs.filter Chunk.isPass) := by
  induction cs with
  | nil => rfl
  | cons c cs ih =>
    cases c with
    | pass t => simpa [List.filter, Chunk.isPass, flatMapL, Chunk.consumed, Chunk.emitted] using ih
    | ymlPair v => simpa [List.filter, Chunk.isPass] using ih
    | ymlEq t => simpa [List.filter, Chunk.isPass] using ih
    | envPair v => simpa [List.filter, Chunk.isPass] using ih
    | envEq t => simpa [List.filter, Chunk.isPass] using ih
    | dumpFlag => simpa [List.filter, Chunk.isPass] using ih

/-- A token of the single-token `flag=value` form of a recognized flag. -/
def isEqForm (tok : String) : Bool :=
  strStartsWith tok "--yml-file=" || strStartsWith tok "--env-file="

/-- Per chunk, emissions exceed consumptions only on `flag=value`
tokens, each of which accounts for at most one extra output token. -/
theorem chunk_emit_le (c : Chunk) (hc : Chunk.wf c) :
    (Chunk.emitted c).length ≤
      (Chunk.consumed c).length + (Chunk.consumed c).countP isEqForm := by
  cases c with
  | pass t =>
    simp only [Chunk.emitted, Chunk.consumed]
    exact Nat.le_add_right _ _
  | ymlPair v =>
    simp only [Chunk.emitted, Chunk.consumed]
    exact Nat.le_add_right _ _
  | ymlEq t =>
    have htt : isEqForm t = true := by
      have hc2 : strStartsWith t "--yml-file=" = true := hc
      simp [isEqForm, hc2]
    simp [Chunk.emitted, Chunk.consumed, List.countP_cons, htt]
  | envPair v =>
    simp only [Chunk.emitted, Chunk.consumed]
    exact Nat.le_add_right _ _
  | envEq t =>
    have htt : isEqForm t = true := by
      have hc2 : strStartsWith t "--env-file=" = true := hc
      simp [isEqForm, hc2]
    simp [Chunk.emitted, Chunk.consumed, List.countP_cons, htt]
  | dumpFlag =>
    simp [Chunk.emitted]

/-- Summed over a well-formed chunk sequence, the emitted tokens number
at most the consumed tokens plus the consumed `flag=value` tokens. -/
theorem emitted_length_le (cs : List Chunk) (hwf : ∀ c ∈ cs, Chunk.wf c) :
    (flatMapL Chunk.emitted cs).length ≤
      (flatMapL Chunk.consumed cs).length +
        (flatMapL Chunk.consumed cs).countP isEqForm := by
  induction cs with
  | nil => simp [flatMapL]
  | cons c cs ih =>
    have hc := chunk_emit_le c (hwf c (List.mem_cons_self c cs))
    have ih2 := ih (fun d hd => hwf d (List.mem_cons_of_mem c hd))
    simp only [flatMapL, List.length_append, List.countP_append]
    omega

/-- Concatenation distributes over `flatMapL`. -/
theorem flatMapL_append {α β : Type} (f : α → List β) :
    ∀ (a b : List α), flatMapL f (a ++ b) = flatMapL f a ++ flatMapL f b := by
  intro a b
  induction a with
  | nil => simp [flatMapL]
  | cons x xs ih => simp [flatMapL, ih]

/-- Step equation of the scan at a two-token `--yml-file` occurrence. -/
theorem parseChunks_cons_yml_pair (v : String) (rest2 : List String) :
    parseChunks ("--yml-file" :: v :: rest2) =
      (parseChunks rest2).map (fun cs => Chunk.ymlPair v :: cs) := by
  rw [parseChunks.eq_def]
  simp

/-- Step equation of the scan at a two-token `--env-file` occurrence. -/
theorem parseChunks_cons_env_pair (v : String) (rest2 : List String) :
    parseChunks ("--env-file" :: v :: rest2) =
      (parseChunks rest2).map (fun cs => Chunk.envPair v :: cs) := by
  have e1 : ¬ (("--env-file" : String) = "--yml-file") := by decide
  have e2 : strStartsWith "--env-file" "--yml-file=" = false := by decide
  rw [parseChunks.eq_def]
  simp [e1, e2]

/-- Claim C1: on every accepted input, the rewritten output decomposes
chunk by chunk over the input: each pass-through token is copied
unchanged in place, each custom-flag occurrence is replaced in place by
its replacement tokens, and removing the custom chunks from the input
yields the same sequence as removing the injected chunks from the
output. -/
theorem c1_order_preservation (ts : List String) (cs : List Chunk)
    (h : parseChunks ts = .ok cs) :
    ArgRewriter.process ts = .ok (flatMapL Chunk.emitted cs, chunksState cs) ∧
    flatMapL Chunk.consumed cs = ts ∧
    flatMapL Chunk.consumed (cs.filter Chunk.isPass) =
      flatMapL Chunk.emitted (cs.filter Chunk.isPass) := by
  refine ⟨?_, (parseChunks_sound ts cs h).1, filter_pass_consumed_emitted cs⟩
  rw [ArgRewriter.process, processAux_eq, h]
  rfl

/-- Witness for C1 at a concrete mixed input. -/
theorem c1_witness :
    ArgRewriter.process ["up", "--yml-file", "x.yml", "--dump", "-d"] =
      .ok (["up", "-f", "x.yml", "-d"],
        { yml_file := some "x.yml", env_file := none, dump := true }) ∧
    flatMapL Chunk.consumed
        [Chunk.pass "up", Chunk.ymlPair "x.yml", Chunk.dumpFlag, Chunk.pass "-d"] =
      ["up", "--yml-file", "x.yml", "--dump", "-d"] ∧
    flatMapL Chunk.consumed
        (List.filter Chunk.isPass
          [Chunk.pass "up", Chunk.ymlPair "x.yml", Chunk.dumpFlag, Chunk.pass "-d"]) =
      flatMapL Chunk.emitted
        (List.filter Chunk.isPass
          [Chunk.pass "up", Chunk.ymlPair "x.yml", Chunk.dumpFlag, Chunk.pass "-d"]) :=
  c1_order_preservation ["up", "--yml-file", "x.yml", "--dump", "-d"]
    [Chunk.pass "up", Chunk.ymlPair "x.yml", Chunk.dumpFlag, Chunk.pass "-d"] rfl

/-- Counterexample to claim C4 as stated: the single input token
`--yml-file=a` is accepted and rewritten to the two tokens `-f a`, so
the output is strictly longer than the input. -/
theorem c4_counterexample :
    ArgRewriter.process ["--yml-file=a"] =
      .ok (["-f", "a"], { yml_file := some "a", env_file := none, dump := false }) ∧
    List.length ["--yml-file=a"] < List.length ["-f", "a"] :=
  ⟨rfl, by decide⟩

/-- Claim C4 (amended): the rewritten output has at most the input's
cardinality plus the number of input tokens of the one-token
`flag=value` form (each such token expands to a two-token replacement);
in particular, without `flag=value` tokens the output is never longer
than the input. -/
theorem c4_amended (ts out : List String) (st : CustomArgs)
    (h : ArgRewriter.process ts = .ok (out, st)) :
    out.length ≤ ts.length + ts.countP isEqForm := by
  rw [ArgRewriter.process, processAux_eq] at h
  cases hp : parseChunks ts with
  | error m =>
    rw [hp] at h
    exact absurd h (by simp [Except.map])
  | ok cs =>
    rw [hp] at h
    simp only [Except.map, Except.ok.injEq, Prod.mk.injEq] at h
    obtain ⟨h1, h2⟩ := h
    subst h1
    obtain ⟨hcons, hwf⟩ := parseChunks_sound ts cs hp
    have hle := emitted_length_le cs hwf
    rw [hcons] at hle
    exact hle

/-- Witness for the amended C4 at a concrete input containing one
`flag=value` token. -/
theorem c4_amended_witness :
    List.length ["-f", "a", "up"] ≤
      List.length ["--yml-file=a", "up"] +
        List.countP isEqForm ["--yml-file=a", "up"] :=
  c4_amended ["--yml-file=a", "up"] ["-f", "a", "up"]
    { yml_file := some "a", env_file := none, dump := false } rfl

/-- Claim C9: a token consumed as the value of a two-token `--yml-file`
or `--env-file` occurrence, at any position, is taken verbatim and is
never itself interpreted as a flag: whatever its shape, it becomes the
value of that one occurrence's chunk, the scan of the following tokens
is exactly the scan they would get on their own, the output re-emits the
value unchanged after the replacement flag, and the value's only effect
on the collected record is to set that occurrence's override field. -/
theorem c9_value_verbatim (p q : List String) (cs ds : List Chunk) (f t : String)
    (hf : f = "--yml-file" ∨ f = "--env-file")
    (hp : parseChunks p = .ok cs) (hq : parseChunks q = .ok ds) :
    parseChunks (p ++ f :: t :: q) =
      .ok (cs ++ (if f = "--yml-file" then Chunk.ymlPair t else Chunk.envPair t) :: ds) ∧
    ArgRewriter.process (p ++ f :: t :: q) =
      .ok (flatMapL Chunk.emitted cs ++
            (if f = "--yml-file" then "-f" else "--env-file") :: t ::
              flatMapL Chunk.emitted ds,
        (cs ++ (if f = "--yml-file" then Chunk.ymlPair t else Chunk.envPair t) :: ds).foldl
          chunkApply {}) ∧
    (∀ s : CustomArgs,
      chunkApply s (if f = "--yml-file" then Chunk.ymlPair t else Chunk.envPair t) =
        if f = "--yml-file" then { s with yml_file := some t }
        else { s with env_file := some t }) := by
  have hmid : parseChunks (f :: t :: q) =
      .ok ((if f = "--yml-file" then Chunk.ymlPair t else Chunk.envPair t) :: ds) := by
    rcases hf with rfl | rfl
    · rw [parseChunks_cons_yml_pair, hq]
      rfl
    · rw [parseChunks_cons_env_pair, hq]
      rfl
  have hall : parseChunks (p ++ f :: t :: q) =
      .ok (cs ++ (if f = "--yml-file" then Chunk.ymlPair t else Chunk.envPair t) :: ds) := by
    rw [parseChunks_append p cs _ hp, hmid]
    rfl
  refine ⟨hall, ?_, ?_⟩
  · rw [ArgRewriter.process, processAux_eq, hall]
    simp only [Except.map, Except.ok.injEq, Prod.mk.injEq]
    constructor
    · rw [flatMapL_append]
      rcases hf with rfl | rfl
      · simp [flatMapL, Chunk.emitted]
      · simp [flatMapL, Chunk.emitted]
    · trivial
  · intro s
    rcases hf with rfl | rfl
    · rfl
    · rfl

/-- Witness for C9: the claim's own example `--env-file --dump` (the
dump flag stays false), and a non-final `--yml-file --dump` occurrence
followed by a further token. -/
theorem c9_witness :
    ArgRewriter.process ["--env-file", "--dump"] =
      .ok (["--env-file", "--dump"],
        { yml_file := none, env_file := some "--dump", dump := false }) ∧
    ArgRewriter.process ["--yml-file", "--dump", "up"] =
      .ok (["-f", "--dump", "up"],
        { yml_file := some "--dump", env_file := none, dump := false }) := by
  have h1 := (c9_value_verbatim [] [] [] [] "--env-file" "--dump"
    (Or.inr rfl) rfl rfl).2.1
  have h2 := (c9_value_verbatim [] ["up"] [] [Chunk.pass "up"] "--yml-file" "--dump"
    (Or.inl rfl) rfl rfl).2.1
  exact ⟨h1, h2⟩

/-- The value an occurrence chunk records for the `--yml-file` flag
(either form), if it is one. -/
def chunkYmlValue : Chunk → Option String
  | .ymlPair v => some v
  | .ymlEq t => some (afterFirstEqS t)
  | _ => none

/-- The value an occurrence chunk records for the `--env-file` flag
(either form), if it is one. -/
def chunkEnvValue : Chunk → Option String
  | .envPair v => some v
  | .envEq t => some (afterFirstEqS t)
  | _ => none

/-- The value of the last chunk that `f` recognizes, starting from
`init` when none does. -/
def lastValueFrom (f : Chunk → Option String) (init : Option String)
    (cs : List Chunk) : Option String :=
  cs.foldl (fun acc c => match f c with | some v => some v | none => acc) init

/-- Folding the chunk updates leaves in `yml_file` exactly the last
`--yml-file` occurrence's value. -/
theorem foldl_yml_lastValue (cs : List Chunk) :
    ∀ s : CustomArgs,
      (cs.foldl chunkApply s).yml_file = lastValueFrom chunkYmlValue s.yml_file cs := by
  induction cs with
  | nil => intro s; rfl
  | cons c cs ih =>
    intro s
    rw [List.foldl_cons, ih]
    cases c <;> rfl

/-- Folding the chunk updates leaves in `env_file` exactly the last
`--env-file` occurrence's value. -/
theorem foldl_env_lastValue (cs : List Chunk) :
    ∀ s : CustomArgs,
      (cs.foldl chunkApply s).env_file = lastValueFrom chunkEnvValue s.env_file cs := by
  induction cs with
  | nil => intro s; rfl
  | cons c cs ih =>
    intro s
    rw [List.foldl_cons, ih]
    cases c <;> rfl

/-- Claim C10: on every accepted input, each `--yml-file` and
`--env-file` occurrence (two-token or `flag=value` form) is replaced in
place by its own replacement pair — the output is the in-place
concatenation of the per-chunk emissions — while the collected record's
`yml_file` and `env_file` fields hold exactly the value of the last
occurrence of the respective flag (in either form), or `none` when the
flag never occurs. -/
theorem c10_last_occurrence_wins (ts : List String) (cs : List Chunk)
    (h : parseChunks ts = .ok cs) :
    ArgRewriter.process ts = .ok (flatMapL Chunk.emitted cs, chunksState cs) ∧
    (chunksState cs).yml_file = lastValueFrom chunkYmlValue none cs ∧
    (chunksState cs).env_file = lastValueFrom chunkEnvValue none cs := by
  refine ⟨?_, ?_, ?_⟩
  · rw [ArgRewriter.process, processAux_eq, h]
    rfl
  · rw [chunksState, foldl_yml_lastValue]
  · rw [chunksState, foldl_env_lastValue]

/-- Witness for C10 at a concrete input with two occurrences of each
flag in mixed forms: the last `--yml-file` occurrence is two-token, the
last `--env-file` occurrence is `flag=value`, and each of the four
occurrences yields its own replacement pair in place. -/
theorem c10_witness :
    ArgRewriter.process
        ["--env-file", "e1", "--yml-file=a.yml", "--env-file=e2", "up",
          "--yml-file", "b.yml"] =
      .ok (["--env-file", "e1", "-f", "a.yml", "--env-file", "e2", "up",
          "-f", "b.yml"],
        { yml_file := some "b.yml", env_file := some "e2", dump := false }) ∧
    lastValueFrom chunkYmlValue none
        [Chunk.envPair "e1", Chunk.ymlEq "--yml-file=a.yml", Chunk.envEq "--env-file=e2",
          Chunk.pass "up", Chunk.ymlPair "b.yml"] = some "b.yml" ∧
    lastValueFrom chunkEnvValue none
        [Chunk.envPair "e1", Chunk.ymlEq "--yml-file=a.yml", Chunk.envEq "--env-file=e2",
          Chunk.pass "up", Chunk.ymlPair "b.yml"] = some "e2" := by
  have h := c10_last_occurrence_wins
    ["--env-file", "e1", "--yml-file=a.yml", "--env-file=e2", "up", "--yml-file", "b.yml"]
    [Chunk.envPair "e1", Chunk.ymlEq "--yml-file=a.yml", Chunk.envEq "--env-file=e2",
      Chunk.pass "up", Chunk.ymlPair "b.yml"] rfl
  exact ⟨h.1, h.2.1.symm.trans (by decide), h.2.2.symm.trans (by decide)⟩

/-! ## The .env loader (dcj.py lines 148-222)

`load_dotenv` reads a key/value file line by line, installing each valid
binding into the process environment unless the key is already present.
The process environment is modelled as an association list searched from
the front; installation appends (position is irrelevant because a key is
only installed when absent).  File contents are modelled as the list of
raw lines. -/

/-- The scanning loop of `strip_inline_comment_unquoted` (dcj.py lines
165-185): returns the text truncated at the first unescaped, unquoted
`#`, or the whole text if none occurs.  The three Booleans are
`in_single`, `in_double` and `esc`. -/
def sicGo : List Char → Bool → Bool → Bool → List Char
  | [], _, _, _ => []
  | ch :: cs, inS, inD, esc =>
    if esc then ch :: sicGo cs inS inD false
    else if ch == '\\' then ch :: sicGo cs inS inD true
    else if ch == squoteC && !inD then ch :: sicGo cs (!inS) inD false
    else if ch == '"' && !inS then ch :: sicGo cs inS (!inD) false
    else if ch == '#' && !inS && !inD then []
    else ch :: sicGo cs inS inD false

/-- Model of `strip_inline_comment_unquoted` (both return paths apply
`rstrip` to the possibly truncated text). -/
def stripInlineCommentUnquoted (text : List Char) : List Char :=
  rstripL (sicGo text false false false)

/-- Model of Python `s.replace(chr(92) ++ p2, r)` for a two-character
pattern starting with a backslash: scan left to right, replacing
non-overlapping occurrences. -/
def pyReplaceEsc (p2 r : Char) : List Char → List Char
  | [] => []
  | [ch] => [ch]
  | c1 :: c2 :: cs =>
    if c1 == '\\' && c2 == p2 then r :: pyReplaceEsc p2 r cs
    else c1 :: pyReplaceEsc p2 r (c2 :: cs)

/-- The escape decoding chain of dcj.py line 212, in source order. -/
def decodeEscapesL (v : List Char) : List Char :=
  pyReplaceEsc squoteC squoteC (pyReplaceEsc '"' '"' (pyReplaceEsc 't' '\t' (pyReplaceEsc 'n' '\n' v)))

/-- Processing of one raw line of the .env file (the body of the loop in
dcj.py lines 189-219, up to the environment update): returns the
key/value binding the line yields, or `none` when the line is skipped
(blank, comment, no `=`, or invalid key). -/
def parseDotenvLine (raw : String) : Option (String × String) :=
  let line0 := stripL raw.data
  if line0.isEmpty then none
  else if List.isPrefixOf ['#'] line0 then none
  else
    let line1 := if List.isPrefixOf "export ".data (line0.map Char.toLower)
                 then lstripL (line0.drop 7) else line0
    if !(line1.contains '=') then none
    else
      let kv := splitFirstL '=' line1
      let key := stripL kv.1
      let val0 := stripL kv.2
      let wrappedQ := fun (v : List Char) =>
        (List.isPrefixOf [squoteC] v && List.isSuffixOf [squoteC] v) ||
        (List.isPrefixOf ['"'] v && List.isSuffixOf ['"'] v)
      let val1 := if !(wrappedQ val0)
                  then stripL (stripInlineCommentUnquoted val0)
                  else val0
      let val2 :=
        if wrappedQ val1 then
          let inner := (val1.drop 1).dropLast
          if List.isPrefixOf ['"'] (stripL raw.data) ||
             (!inner.isEmpty && inner.headD ' ' != squoteC)
          then decodeEscapesL inner else inner
        else val1
      if !key.isEmpty && key.all (fun ch => ch == '_' || ch.isAlphanum) then
        some (⟨key⟩, ⟨val2⟩)
      else none

/-- Lookup in the modelled environment (`key in os.environ` /
`os.environ[key]`). -/
def envLookup (env : List (String × String)) (k : String) : Option String :=
  (env.find? (fun p => p.1 == k)).map (fun p => p.2)

/-- Membership test in the modelled environment. -/
def envHas (env : List (String × String)) (k : String) : Bool :=
  env.any (fun p => p.1 == k)

/-- The line loop of `load_dotenv` (dcj.py lines 189-219): threads the
environment through the lines and collects the bindings actually added
(the Python code records the added keys; we keep the values as well so
that the environment-mutation effects can be reconstructed). -/
def loadLinesGo : List (String × String) → List String →
    List (String × String) × List (String × String)
  | env, [] => (env, [])
  | env, l :: ls =>
    match parseDotenvLine l with
    | none => loadLinesGo env ls
    | some kv =>
      if envHas env kv.1 then loadLinesGo env ls
      else
        let r := loadLinesGo (env ++ [kv]) ls
        (r.1, kv :: r.2)

/-- Unfolding equation of the line loop on a cons cell. -/
theorem loadLinesGo_cons (env : List (String × String)) (l : String) (ls : List String) :
    loadLinesGo env (l :: ls) =
      match parseDotenvLine l with
      | none => loadLinesGo env ls
      | some kv =>
        if envHas env kv.1 then loadLinesGo env ls
        else ((loadLinesGo (env ++ [kv]) ls).1, kv :: (loadLinesGo (env ++ [kv]) ls).2) := rfl

/-- Appending a fresh binding does not disturb an existing lookup. -/
theorem envLookup_append (env : List (String × String)) (k v : String)
    (kv' : String × String) (h : envLookup env k = some v) :
    envLookup (env ++ [kv']) k = some v := by
  induction env with
  | nil => simp [envLookup] at h
  | cons p rest ih =>
    by_cases hpk : (p.1 == k) = true
    · simpa [envLookup, List.find?_cons, hpk] using h
    · have h2 : envLookup rest k = some v := by
        simpa [envLookup, List.find?_cons, hpk] using h
      simpa [envLookup, List.find?_cons, hpk] using ih h2

/-- A key reported absent by `envHas` has no binding. -/
theorem envHas_false_lookup (env : List (String × String)) (k : String)
    (h : envHas env k = false) : envLookup env k = none := by
  induction env with
  | nil => simp [envLookup]
  | cons p rest ih =>
    simp only [envHas, List.any_cons, Bool.or_eq_false_iff] at h
    have h2 : envLookup rest k = none := ih h.2
    simp only [envLookup, List.find?_cons, h.1] at h2 ⊢
    exact h2

/-- The line loop never overwrites an existing binding and never reports
an existing key as newly added. -/
theorem loadLinesGo_preserves : ∀ (ls : List String) (env : List (String × String))
    (k v : String), envLookup env k = some v →
      envLookup (loadLinesGo env ls).1 k = some v ∧
      ∀ p ∈ (loadLinesGo env ls).2, p.1 ≠ k
  | [], env, k, v, h => by
    simpa [loadLinesGo] using h
  | l :: ls, env, k, v, h => by
    cases hkv : parseDotenvLine l with
    | none =>
      have ih := loadLinesGo_preserves ls env k v h
      rw [loadLinesGo_cons, hkv]
      exact ih
    | some kv =>
      by_cases hhas : envHas env kv.1 = true
      · have ih := loadLinesGo_preserves ls env k v h
        rw [loadLinesGo_cons, hkv]
        simpa [hhas] using ih
      · have hB : envHas env kv.1 = false := by
          cases hb : envHas env kv.1 with
          | false => rfl
          | true => exact absurd hb hhas
        have hne : kv.1 ≠ k := by
          intro he
          have hnone := envHas_false_lookup env k (he ▸ hB)
          rw [hnone] at h
          exact Option.noConfusion h
        have h2 : envLookup (env ++ [kv]) k = some v := envLookup_append env k v kv h
        have ih := loadLinesGo_preserves ls (env ++ [kv]) k v h2
        rw [loadLinesGo_cons, hkv]
        simp only [hB, Bool.false_eq_true, if_false]
        refine ⟨ih.1, ?_⟩
        show ∀ p ∈ kv :: (loadLinesGo (env ++ [kv]) ls).2, p.1 ≠ k
        intro p hp
        rcases List.mem_cons.mp hp with rfl | hp2
        · exact hne
        · exact ih.2 p hp2

/-- Claim C2 (code behaviour at the failing input): for the file line
`K='a` + backslash + `nb'`, whose value is fully wrapped in a single
matching pair of single quotes, the stored value is NOT the quoted text
verbatim: the escape sequence backslash-n is decoded into a newline,
because the decoding heuristic of dcj.py line 211 fires whenever the
quoted text does not itself start with a single quote. -/
theorem c2_single_quoted_value_decoded :
    parseDotenvLine ⟨['K', '=', squoteC, 'a', '\\', 'n', 'b', squoteC]⟩ =
      some ("K", "a\nb") ∧
    ("a\nb" : String) ≠ ⟨['a', '\\', 'n', 'b']⟩ :=
  ⟨by decide, by decide⟩

/-! ## The orchestration (`main`, dcj.py lines 398-488)

External state is modelled by `World`: which runner binaries the search
path resolves, which regular files and directories exist, the lines of
each readable file, the ambient process environment, the outcome of the
(black-box) Jinja renderer and the child process's exit code.  A run is
modelled as the ordered list of its observable `Effect`s together with
an `Outcome`. -/

/-- The fixed template candidate names (dcj.py lines 34-39). -/
def DEFAULT_TEMPLATE_NAMES : List String :=
  ["docker-compose.jinja.yml", "docker-compose.jinja",
    "docker-compose.j2.yml", "docker-compose.j2"]

/-- Default render output name (dcj.py line 40). -/
def DEFAULT_OUTPUT_YML : String := "docker-compose.yml"

/-- Default env file name (dcj.py line 41). -/
def DEFAULT_ENV_FILE : String := ".env"

/-- The ambient state a run observes. -/
structure World where
  hasDocker : Bool
  hasLegacy : Bool
  files : List String
  dirs : List String
  fileLines : List (String × List String)
  ambient : List (String × String)
  renderOk : Bool
  rendered : String
  runExit : Int

/-- Observable actions of a run, in program order.  Diagnostics printed
to stderr are not tracked; all `print...` constructors are stdout. -/
inductive Effect where
  | envSet (k v : String)
  | mkdirp (dir : String)
  | renderTemplate (tpl : String)
  | writeFile (path content : String)
  | printForwardHelp
  | printTip
  | printHelpText
  | printRendered (s : String)
  | printUsing (cmd : List String)
  | runTool (cmd : List String)
deriving DecidableEq

/-- How a run terminates.  `usageError` models `raise SystemExit(msg)`
(message on stderr, process exit code 1); `toolNotFound` models the
uncaught `RuntimeError` of `which_compose` (traceback, exit code 1);
`renderError` models an uncaught `TemplateError` escaping
`render_template_to_yaml` (traceback, exit code 1). -/
inductive Outcome where
  | exitWith (code : Int)
  | usageError (msg : String)
  | toolNotFound
  | renderError
deriving DecidableEq

/-- The process exit code each outcome produces under Python semantics. -/
def exitCodeOf : Outcome → Int
  | .exitWith n => n
  | .usageError _ => 1
  | .toolNotFound => 1
  | .renderError => 1

/-- Whether an effect writes to standard output. -/
def Effect.isStdout : Effect → Bool
  | .printForwardHelp => true
  | .printTip => true
  | .printHelpText => true
  | .printRendered _ => true
  | .printUsing _ => true
  | _ => false

/-- Model of `which_compose` (dcj.py lines 49-62): prefer the Docker CLI
binary with the `compose` subcommand, fall back to the legacy binary,
and fail when neither resolves. -/
def whichCompose (w : World) : Option (List String × String) :=
  if w.hasDocker then some (["docker", "compose"], "docker compose")
  else if w.hasLegacy then some (["docker-compose"], "docker-compose")
  else none

/-- Model of `find_first_template` (dcj.py lines 353-357). -/
def findFirstTemplate (w : World) : Option String :=
  DEFAULT_TEMPLATE_NAMES.find? (fun n => w.files.contains n)

/-- The lines a path yields when read. -/
def lookupLines (w : World) (path : String) : List String :=
  ((w.fileLines.find? (fun p => p.1 == path)).map (fun p => p.2)).getD []

/-- Model of `load_dotenv` (dcj.py lines 148-222): a missing file loads
nothing; otherwise the line loop runs over the file's lines.  Returns
the updated environment and the bindings actually added, in order. -/
def load_dotenvW (w : World) (path : String) (env : List (String × String)) :
    List (String × String) × List (String × String) :=
  if w.files.contains path then loadLinesGo env (lookupLines w path)
  else (env, [])

/-- The environment-mutation effects of the added bindings, in order. -/
def loadEffs (added : List (String × String)) : List Effect :=
  added.map (fun p => Effect.envSet p.1 p.2)

/-- Model of `os.path.dirname` for POSIX paths as used on the output
path (dcj.py line 447). -/
def dirnameS (s : String) : String :=
  let d := s.data
  if !(d.contains '/') then ""
  else
    let head := (d.reverse.dropWhile (fun c => c != '/')).reverse
    if head.all (fun c => c == '/') then ⟨head⟩
    else ⟨(head.reverse.dropWhile (fun c => c == '/')).reverse⟩

/-- Model of `parse_equals_or_next` (dcj.py lines 65-82): scan for the
first occurrence of `flag` or `flag=value`; a trailing bare `flag`
raises `SystemExit`. -/
def parse_equals_or_next (flag : String) : List String → Except String (Option String)
  | [] => .ok none
  | tok :: rest =>
    if tok = flag then
      match rest with
      | [] => .error ("Expected a value after " ++ flag)
      | v :: _ => .ok (some v)
    else if strStartsWith tok (flag ++ "=") then .ok (some (afterFirstEqS tok))
    else parse_equals_or_next flag rest

/-- Model of `run_single_debug` (dcj.py lines 287-351): parse the env
file override (may exit), load the env file, parse the output override
(may exit), try the runner (failure caught, no effect), rewrite the
arguments (may exit), then attempt an in-memory render of the template
if one exists.  The runner is never invoked and no file is written. -/
def run_single_debug (argv : List String) (w : World) : List Effect × Outcome :=
  match parse_equals_or_next "--env-file" argv with
  | .error m => ([], .usageError m)
  | .ok envOpt =>
    let envFile := envOpt.getD DEFAULT_ENV_FILE
    let effs1 := loadEffs (load_dotenvW w envFile w.ambient).2
    match parse_equals_or_next "--yml-file" argv with
    | .error m => (effs1, .usageError m)
    | .ok _ =>
      match ArgRewriter.process argv with
      | .error m => (effs1, .usageError m)
      | .ok _ =>
        match findFirstTemplate w with
        | some tpl =>
          (effs1 ++ [Effect.renderTemplate tpl],
            if w.renderOk then Outcome.exitWith 0 else Outcome.exitWith 1)
        | none => (effs1, Outcome.exitWith 0)

/-- The Normal-mode part of `main` (dcj.py lines 430-488), after the
rewriter has produced the rewritten list `rwr` and the record `c`:
load the env file, render the template when one exists (to stdout in
dump mode, to the output file otherwise), then resolve the runner,
prepend the default `-f` pair when no file flag is present, and invoke
the runner. -/
def normalCore (rwr : List String) (c : CustomArgs) (w : World) : List Effect × Outcome :=
  let envFile := c.env_file.getD DEFAULT_ENV_FILE
  let effs1 := loadEffs (load_dotenvW w envFile w.ambient).2
  match findFirstTemplate w with
  | some tpl =>
    let outputYml := c.yml_file.getD DEFAULT_OUTPUT_YML
    let outDir := dirnameS outputYml
    let effsMk := if outDir ≠ "" ∧ w.dirs.contains outDir = false
                  then [Effect.mkdirp outDir] else []
    if c.dump then
      if w.renderOk then
        (effs1 ++ effsMk ++ [Effect.renderTemplate tpl, Effect.printRendered w.rendered],
          Outcome.exitWith 0)
      else
        (effs1 ++ effsMk ++ [Effect.renderTemplate tpl], Outcome.exitWith 1)
    else if w.renderOk then
      match whichCompose w with
      | none =>
        (effs1 ++ effsMk ++
          [Effect.renderTemplate tpl, Effect.writeFile outputYml w.rendered],
          Outcome.toolNotFound)
      | some cl =>
        let finalArgs := if !(rwr.contains "-f") && !(rwr.contains "--file")
                         then "-f" :: outputYml :: rwr else rwr
        (effs1 ++ effsMk ++
          [Effect.renderTemplate tpl, Effect.writeFile outputYml w.rendered,
            Effect.printUsing (cl.1 ++ finalArgs), Effect.runTool (cl.1 ++ finalArgs)],
          Outcome.exitWith w.runExit)
    else
      (effs1 ++ effsMk ++ [Effect.renderTemplate tpl], Outcome.renderError)
  | none =>
    if c.dump then (effs1, Outcome.exitWith 2)
    else
      match whichCompose w with
      | none => (effs1, Outcome.toolNotFound)
      | some cl =>
        (effs1 ++ [Effect.printUsing (cl.1 ++ rwr), Effect.runTool (cl.1 ++ rwr)],
          Outcome.exitWith w.runExit)

/-- Model of `main` (dcj.py lines 398-488): the mode dispatch, in source
order: sole `-h`/`--help` pass-through, `--jhelp`, `--jdebug`, then
Normal mode via `ArgRewriter.process` and `normalCore`. -/
def mainRun (argv : List String) (w : World) : List Effect × Outcome :=
  if argv = ["-h"] ∨ argv = ["--help"] then
    match whichCompose w with
    | none => ([], Outcome.toolNotFound)
    | some cl =>
      ([Effect.printForwardHelp, Effect.runTool (cl.1 ++ argv), Effect.printTip],
        Outcome.exitWith w.runExit)
  else if argv.contains "--jhelp" then
    ([Effect.printHelpText], Outcome.exitWith 0)
  else if argv.contains "--jdebug" then
    run_single_debug (argv.filter (fun t => t != "--jdebug")) w
  else
    match ArgRewriter.process argv with
    | .error m => ([], Outcome.usageError m)
    | .ok rc => normalCore rc.1 rc.2 w

/-- Claim C3: the file loader never overwrites a key already present in
the environment: every pre-existing binding survives unchanged and no
pre-existing key is reported among the newly added bindings, for every
world (hence every file content) and every environment. -/
theorem c3_no_overwrite (w : World) (path : String) (env : List (String × String))
    (k v : String) (h : envLookup env k = some v) :
    envLookup (load_dotenvW w path env).1 k = some v ∧
    ¬ k ∈ (load_dotenvW w path env).2.map Prod.fst := by
  rw [load_dotenvW]
  by_cases hf : w.files.contains path = true
  · simp only [hf, if_true]
    have hp := loadLinesGo_preserves (lookupLines w path) env k v h
    refine ⟨hp.1, ?_⟩
    intro hk
    rcases List.mem_map.mp hk with ⟨p, hpmem, hpk⟩
    exact (hp.2 p hpmem) hpk
  · simp only [Bool.not_eq_true] at hf
    simp only [hf, Bool.false_eq_true, if_false]
    exact ⟨h, by simp⟩

/-- World for the C3 witness: a `.env` file trying to rebind `FOO`. -/
def wC3 : World :=
  { hasDocker := true, hasLegacy := false, files := [".env"], dirs := [],
    fileLines := [(".env", ["FOO=fromfile"])], ambient := [("FOO", "ambient")],
    renderOk := true, rendered := "", runExit := 0 }

/-- Witness for C3: ambient `FOO=ambient` survives a file `FOO=fromfile`
and `FOO` is not reported as newly added. -/
theorem c3_witness :
    envLookup (load_dotenvW wC3 ".env" [("FOO", "ambient")]).1 "FOO" = some "ambient" ∧
    ¬ "FOO" ∈ (load_dotenvW wC3 ".env" [("FOO", "ambient")]).2.map Prod.fst :=
  c3_no_overwrite wC3 ".env" [("FOO", "ambient")] "FOO" "ambient" rfl

/-- Mode dispatch: when no special mode applies, `mainRun` is the Normal
mode pipeline. -/
theorem mainRun_normal (argv : List String) (w : World)
    (h1 : argv ≠ ["-h"]) (h2 : argv ≠ ["--help"])
    (h3 : argv.contains "--jhelp" = false) (h4 : argv.contains "--jdebug" = false) :
    mainRun argv w =
      match ArgRewriter.process argv with
      | .error m => ([], Outcome.usageError m)
      | .ok rc => normalCore rc.1 rc.2 w := by
  rw [mainRun, if_neg (by simp [h1, h2]),
    if_neg (fun hc => by rw [h3] at hc; exact Bool.noConfusion hc),
    if_neg (fun hc => by rw [h4] at hc; exact Bool.noConfusion hc)]

/-- Every loader effect is an environment insertion. -/
theorem loadEffs_shape (added : List (String × String)) (e : Effect)
    (he : e ∈ loadEffs added) : ∃ k v, e = Effect.envSet k v := by
  rcases List.mem_map.mp he with ⟨p, _, rfl⟩
  exact ⟨p.1, p.2, rfl⟩

/-- Debug mode only mutates the environment and attempts renders: every
effect is an `envSet` or a `renderTemplate`. -/
theorem run_single_debug_effects (argv : List String) (w : World) :
    ∀ e ∈ (run_single_debug argv w).1,
      (∃ k v, e = Effect.envSet k v) ∨ (∃ t, e = Effect.renderTemplate t) := by
  intro e
  unfold run_single_debug
  cases hA : parse_equals_or_next "--env-file" argv with
  | error m => intro he; exact absurd he (List.not_mem_nil e)
  | ok envOpt =>
    cases hB : parse_equals_or_next "--yml-file" argv with
    | error m => intro he; exact Or.inl (loadEffs_shape _ e he)
    | ok yv =>
      cases hC : ArgRewriter.process argv with
      | error m => intro he; exact Or.inl (loadEffs_shape _ e he)
      | ok rc =>
        cases hD : findFirstTemplate w with
        | some tpl =>
          intro he
          rcases List.mem_append.mp he with h5 | h5
          · exact Or.inl (loadEffs_shape _ e h5)
          · exact Or.inr ⟨tpl, by simpa using h5⟩
        | none => intro he; exact Or.inl (loadEffs_shape _ e he)

/-- When the runner is unresolvable, Normal mode never produces a
`runTool` effect. -/
theorem normalCore_no_tool (rwr : List String) (c : CustomArgs) (w : World)
    (hwc : whichCompose w = none) :
    ∀ e ∈ (normalCore rwr c w).1, ∀ a, e ≠ Effect.runTool a := by
  intro e he a hea
  subst hea
  unfold normalCore at he
  rw [hwc] at he
  repeat' split at he
  all_goals simp_all [loadEffs, List.mem_append, List.mem_map]

/-- When the runner is unresolvable and Normal mode survives past the
render step without dump mode, the run ends in `toolNotFound`. -/
theorem normalCore_toolNotFound (rwr : List String) (c : CustomArgs) (w : World)
    (hwc : whichCompose w = none) (hdump : c.dump = false)
    (hok : findFirstTemplate w = none ∨ w.renderOk = true) :
    (normalCore rwr c w).2 = Outcome.toolNotFound := by
  unfold normalCore
  rcases hok with hnone | hrok
  · rw [hnone, hwc]
    simp [hdump]
  · cases ht : findFirstTemplate w with
    | none => rw [hwc]; simp [hdump]
    | some tpl => rw [hwc]; simp [hdump, hrok]

/-- In dump mode, Normal mode never invokes the runner, whether the
render succeeds or fails. -/
theorem normalCore_dump_no_tool (rwr : List String) (c : CustomArgs) (w : World)
    (h6 : c.dump = true) :
    ∀ e ∈ (normalCore rwr c w).1, ∀ a, e ≠ Effect.runTool a := by
  intro e he a hea
  subst hea
  unfold normalCore at he
  repeat' split at he
  all_goals simp_all [loadEffs, List.mem_append, List.mem_map]

/-- In dump mode with no template, Normal mode stops after the env load
with exit code 2. -/
theorem normalCore_dump_no_template (rwr : List String) (c : CustomArgs) (w : World)
    (h6 : c.dump = true) (hn : findFirstTemplate w = none) :
    normalCore rwr c w =
      (loadEffs (load_dotenvW w (c.env_file.getD DEFAULT_ENV_FILE) w.ambient).2,
        Outcome.exitWith 2) := by
  unfold normalCore
  rw [hn]
  simp [h6]

/-- World with no runner but a template and an env file. -/
def wNoRun : World :=
  { hasDocker := false, hasLegacy := false,
    files := [".env", "docker-compose.jinja.yml"], dirs := [],
    fileLines := [(".env", ["FOO=bar"])], ambient := [],
    renderOk := true, rendered := "X", runExit := 0 }

/-- World with no runner and no files at all. -/
def wEmpty : World :=
  { hasDocker := false, hasLegacy := false, files := [], dirs := [], fileLines := [],
    ambient := [], renderOk := true, rendered := "", runExit := 0 }

/-- World with the Docker CLI available and no files. -/
def wDocker : World :=
  { hasDocker := true, hasLegacy := false, files := [], dirs := [], fileLines := [],
    ambient := [], renderOk := true, rendered := "", runExit := 0 }

/-- World with the Docker CLI and a template file. -/
def wTpl : World :=
  { hasDocker := true, hasLegacy := false, files := ["docker-compose.jinja.yml"],
    dirs := [], fileLines := [], ambient := [], renderOk := true, rendered := "Y",
    runExit := 0 }

/-- Counterexample to claim C5 as stated: with no runner resolvable, a
template present and an env file present, the Normal-mode run mutates
the environment, renders the template and writes the output file before
failing with `toolNotFound` — the failure does not precede all side
effects. -/
theorem c5_counterexample :
    mainRun [] wNoRun =
      ([Effect.envSet "FOO" "bar",
        Effect.renderTemplate "docker-compose.jinja.yml",
        Effect.writeFile "docker-compose.yml" "X"],
        Outcome.toolNotFound) := by
  decide

/-- Claim C5 (amended): when neither runner form is resolvable, the
wrapped tool is never invoked in any run mode, the sole `-h`/`--help`
pass-through fails with `toolNotFound` before any effect, and a
Normal-mode run that reaches runner resolution (dump not set, and
either no template or a successful render) fails with `toolNotFound`
and exit code 1 — but in Normal mode this failure comes after the
environment mutation, template render and output write, not before all
side effects. -/
theorem c5_amended (argv : List String) (w : World) (rwr : List String) (c : CustomArgs)
    (hD : w.hasDocker = false) (hL : w.hasLegacy = false) :
    (∀ e ∈ (mainRun argv w).1, ∀ a, e ≠ Effect.runTool a) ∧
    ((argv = ["-h"] ∨ argv = ["--help"]) → mainRun argv w = ([], Outcome.toolNotFound)) ∧
    (argv ≠ ["-h"] → argv ≠ ["--help"] →
      argv.contains "--jhelp" = false → argv.contains "--jdebug" = false →
      ArgRewriter.process argv = .ok (rwr, c) → c.dump = false →
      (findFirstTemplate w = none ∨ w.renderOk = true) →
      (mainRun argv w).2 = Outcome.toolNotFound ∧
      exitCodeOf (mainRun argv w).2 = 1) := by
  have hwc : whichCompose w = none := by simp [whichCompose, hD, hL]
  refine ⟨?_, ?_, ?_⟩
  · by_cases hm : argv = ["-h"] ∨ argv = ["--help"]
    · rw [mainRun, if_pos hm, hwc]
      intro e he
      simp at he
    · by_cases hj : argv.contains "--jhelp" = true
      · rw [mainRun, if_neg hm, if_pos hj]
        intro e he a
        simp at he
        subst he
        simp
      · by_cases hd : argv.contains "--jdebug" = true
        · rw [mainRun, if_neg hm, if_neg hj, if_pos hd]
          intro e he a
          rcases run_single_debug_effects _ w e he with ⟨k, v, rfl⟩ | ⟨t, rfl⟩ <;> simp
        · rw [mainRun, if_neg hm, if_neg hj, if_neg hd]
          cases hpr : ArgRewriter.process argv with
          | error m => intro e he; simp at he
          | ok rc => exact normalCore_no_tool rc.1 rc.2 w hwc
  · intro hm
    rw [mainRun, if_pos hm, hwc]
  · intro h1 h2 h3 h4 h5 h6 h7
    have hmn := mainRun_normal argv w h1 h2 h3 h4
    have hc := normalCore_toolNotFound rwr c w hwc h6 h7
    rw [hmn, h5]
    refine ⟨hc, ?_⟩
    show exitCodeOf (normalCore rwr c w).2 = 1
    rw [hc]
    rfl

/-- Witness for the amended C5: a Normal-mode run in a runner-less
world ends in `toolNotFound` and never invokes the tool. -/
theorem c5_witness :
    (mainRun [] wEmpty).2 = Outcome.toolNotFound ∧
    ∀ e ∈ (mainRun [] wEmpty).1, ∀ a, e ≠ Effect.runTool a := by
  have h := c5_amended [] wEmpty [] {} rfl rfl
  exact ⟨(h.2.2 (by decide) (by decide) rfl rfl rfl rfl (Or.inl rfl)).1, h.1⟩

/-- Claim C6: in Normal mode with a rendered template, the final
argument list prepends `-f <resolved output path>` exactly when neither
`-f` nor `--file` occurs in the rewritten list, and with no template the
rewritten list is forwarded unchanged with no injection. -/
theorem c6_default_injection (argv : List String) (w : World) (rwr : List String)
    (c : CustomArgs) (cl : List String × String)
    (h1 : argv ≠ ["-h"]) (h2 : argv ≠ ["--help"])
    (h3 : argv.contains "--jhelp" = false) (h4 : argv.contains "--jdebug" = false)
    (h5 : ArgRewriter.process argv = .ok (rwr, c)) (h6 : c.dump = false)
    (h8 : whichCompose w = some cl) :
    (∀ tpl, findFirstTemplate w = some tpl → w.renderOk = true →
      ∃ pre, mainRun argv w =
        (pre ++
          [Effect.printUsing (cl.1 ++ (if !(rwr.contains "-f") && !(rwr.contains "--file")
              then "-f" :: (c.yml_file.getD DEFAULT_OUTPUT_YML) :: rwr else rwr)),
            Effect.runTool (cl.1 ++ (if !(rwr.contains "-f") && !(rwr.contains "--file")
              then "-f" :: (c.yml_file.getD DEFAULT_OUTPUT_YML) :: rwr else rwr))],
          Outcome.exitWith w.runExit)) ∧
    (findFirstTemplate w = none →
      ∃ pre, mainRun argv w =
        (pre ++ [Effect.printUsing (cl.1 ++ rwr), Effect.runTool (cl.1 ++ rwr)],
          Outcome.exitWith w.runExit)) := by
  have hmn := mainRun_normal argv w h1 h2 h3 h4
  constructor
  · intro tpl htpl hrok
    refine ⟨loadEffs (load_dotenvW w (c.env_file.getD DEFAULT_ENV_FILE) w.ambient).2 ++
      ((if dirnameS (c.yml_file.getD DEFAULT_OUTPUT_YML) ≠ "" ∧
          w.dirs.contains (dirnameS (c.yml_file.getD DEFAULT_OUTPUT_YML)) = false
        then [Effect.mkdirp (dirnameS (c.yml_file.getD DEFAULT_OUTPUT_YML))] else []) ++
        [Effect.renderTemplate tpl,
          Effect.writeFile (c.yml_file.getD DEFAULT_OUTPUT_YML) w.rendered]), ?_⟩
    rw [hmn, h5]
    show normalCore rwr c w = _
    unfold normalCore
    rw [htpl]
    simp only [h6, h8, hrok, Bool.false_eq_true, if_false, if_true]
    simp [List.append_assoc]
  · intro hnone
    refine ⟨loadEffs (load_dotenvW w (c.env_file.getD DEFAULT_ENV_FILE) w.ambient).2, ?_⟩
    rw [hmn, h5]
    show normalCore rwr c w = _
    unfold normalCore
    rw [hnone]
    simp only [h6, h8, Bool.false_eq_true, if_false]

/-- Witness for C6: with a template present and no file flag given, the
run invokes the tool with `-f docker-compose.yml` prepended. -/
theorem c6_witness :
    ∃ pre, mainRun ["up"] wTpl =
      (pre ++
        [Effect.printUsing ["docker", "compose", "-f", "docker-compose.yml", "up"],
          Effect.runTool ["docker", "compose", "-f", "docker-compose.yml", "up"]],
        Outcome.exitWith 0) := by
  have h := (c6_default_injection ["up"] wTpl ["up"] {}
    (["docker", "compose"], "docker compose")
    (by decide) (by decide) rfl rfl rfl rfl rfl).1 "docker-compose.jinja.yml" rfl rfl
  rcases h with ⟨pre, hpre⟩
  refine ⟨pre, ?_⟩
  rw [hpre]
  rfl

/-- Counterexample to claim C7 as stated: `--env-file` occurs as the
last token with no following value, yet the run does not terminate with
an error — the preceding `--env-file` consumes it as a value and the
tool is invoked with exit code 0. -/
theorem c7_counterexample :
    mainRun ["--env-file", "--env-file"] wDocker =
      ([Effect.printUsing ["docker", "compose", "--env-file", "--env-file"],
        Effect.runTool ["docker", "compose", "--env-file", "--env-file"]],
        Outcome.exitWith 0) := by
  decide

/-- Claim C7 (amended): in a run that reaches Normal-mode processing and
whose left-to-right scan reaches a bare `--yml-file` or `--env-file` as
the final token (not consumed as a preceding flag's value), the run
terminates immediately with a user-facing error naming the flag and
exit code 1, with no environment-loading or template effects at all. -/
theorem c7_amended (p : List String) (cs : List Chunk) (f : String) (w : World)
    (hf : f = "--yml-file" ∨ f = "--env-file")
    (hp : parseChunks p = .ok cs)
    (h1 : p ++ [f] ≠ ["-h"]) (h2 : p ++ [f] ≠ ["--help"])
    (h3 : (p ++ [f]).contains "--jhelp" = false)
    (h4 : (p ++ [f]).contains "--jdebug" = false) :
    mainRun (p ++ [f]) w = ([], Outcome.usageError (f ++ " requires a value")) ∧
    exitCodeOf (Outcome.usageError (f ++ " requires a value")) = 1 := by
  have herr : parseChunks (p ++ [f]) = .error (f ++ " requires a value") := by
    rw [parseChunks_append p cs [f] hp]
    rcases hf with rfl | rfl
    · rfl
    · rfl
  have hproc : ArgRewriter.process (p ++ [f]) = .error (f ++ " requires a value") := by
    rw [ArgRewriter.process, processAux_eq, herr]
    rfl
  rw [mainRun_normal _ w h1 h2 h3 h4, hproc]
  exact ⟨rfl, rfl⟩

/-- Witness for the amended C7 at the sole token `--env-file`. -/
theorem c7_witness :
    mainRun ["--env-file"] wEmpty =
      ([], Outcome.usageError "--env-file requires a value") :=
  (c7_amended [] [] "--env-file" wEmpty (Or.inr rfl) rfl
    (by decide) (by decide) rfl rfl).1

/-- Counterexample to claim C8 as stated: the `--dump` token is present
and the run reaches Normal-mode processing, yet the wrapped tool is
invoked — the token was consumed as the value of `--env-file`, so dump
mode was never enabled. -/
theorem c8_counterexample :
    List.contains ["--env-file", "--dump"] "--dump" = true ∧
    mainRun ["--env-file", "--dump"] wDocker =
      ([Effect.printUsing ["docker", "compose", "--env-file", "--dump"],
        Effect.runTool ["docker", "compose", "--env-file", "--dump"]],
        Outcome.exitWith 0) :=
  ⟨rfl, by decide⟩

/-- Claim C8 (amended): whenever the rewriter actually enables dump mode
(the collected record has `dump = true`) and the run reaches Normal-mode
processing, the wrapped tool is never invoked, whether rendering
succeeds or fails; and if no candidate template exists the run produces
no stdout output and exits with code 2. -/
theorem c8_amended (argv : List String) (w : World) (rwr : List String) (c : CustomArgs)
    (h1 : argv ≠ ["-h"]) (h2 : argv ≠ ["--help"])
    (h3 : argv.contains "--jhelp" = false) (h4 : argv.contains "--jdebug" = false)
    (h5 : ArgRewriter.process argv = .ok (rwr, c)) (h6 : c.dump = true) :
    (∀ e ∈ (mainRun argv w).1, ∀ a, e ≠ Effect.runTool a) ∧
    (findFirstTemplate w = none →
      (mainRun argv w).2 = Outcome.exitWith 2 ∧
      ∀ e ∈ (mainRun argv w).1, Effect.isStdout e = false) := by
  have hmn := mainRun_normal argv w h1 h2 h3 h4
  constructor
  · intro e he a
    rw [hmn, h5] at he
    exact normalCore_dump_no_tool rwr c w h6 e he a
  · intro hn
    have hcore := normalCore_dump_no_template rwr c w h6 hn
    constructor
    · rw [hmn, h5]
      show (normalCore rwr c w).2 = _
      rw [hcore]
    · intro e he
      rw [hmn, h5] at he
      have he2 : e ∈ (normalCore rwr c w).1 := he
      rw [hcore] at he2
      rcases loadEffs_shape _ e he2 with ⟨k, v, rfl⟩
      rfl

/-- Witness for the amended C8: `--dump` with no template exits with
code 2 and no runner invocation. -/
theorem c8_witness :
    (mainRun ["--dump"] wEmpty).2 = Outcome.exitWith 2 ∧
    ∀ e ∈ (mainRun ["--dump"] wEmpty).1, ∀ a, e ≠ Effect.runTool a := by
  have h := c8_amended ["--dump"] wEmpty []
    { yml_file := none, env_file := none, dump := true }
    (by decide) (by decide) rfl rfl rfl rfl
  exact ⟨(h.2 rfl).1, h.1⟩

end Dcj
